import Mathlib

/-!
Shallow embedding of the tiered LLM router (src/server/llmRouter.ts) and of
the self-healing engine (src/server/selfHealing.ts) of the repository, with
the drizzle schema tables the engine touches (failure_patterns, error_logs,
skill_runs, skill_schedules).  External effects (the fetch transport, the
JSON parser, the clock, the API key environment variable) are passed in as
explicit oracle values; a JavaScript `throw` is modelled as `Except.error`.
Timestamps and costs are rationals (JavaScript numbers used only with exact
arithmetic on the relevant paths).
-/

/-- One chat message, as in the `messages` arrays of llmRouter.ts. -/
structure Msg where
  role : String
  content : String
deriving DecidableEq

/-- Model catalog entry, from interface LlmModelConfig in llmRouter.ts. -/
structure LlmModelConfig where
  modelId : String
  tier : String
  censored : Bool
  costPerMTok : ℚ
  costPerCTok : ℚ
deriving DecidableEq

/-- The static OpenRouter model catalog LLM_MODELS of llmRouter.ts, as an
association list from model id to its config record. -/
def LLM_MODELS : List (String × LlmModelConfig) :=
  [ ("venice/uncensored:free",
      ⟨"venice/uncensored:free", "free-uncensored", false, 0, 0⟩),
    ("cognitivecomputations/dolphin-mistral-24b-venice-edition:free",
      ⟨"cognitivecomputations/dolphin-mistral-24b-venice-edition:free", "free-uncensored", false, 0, 0⟩),
    ("cognitivecomputations/dolphin-3.0",
      ⟨"cognitivecomputations/dolphin-3.0", "paid-uncensored", false, 5/10000, 15/10000⟩),
    ("venice/venice-ai-pro",
      ⟨"venice/venice-ai-pro", "paid-uncensored", false, 8/10000, 24/10000⟩),
    ("nous-hermes-3",
      ⟨"nous-hermes-3", "paid-uncensored", false, 6/10000, 18/10000⟩),
    ("mimo-v2-flash",
      ⟨"mimo-v2-flash", "free-censored", true, 0, 0⟩),
    ("trinity-large-preview",
      ⟨"trinity-large-preview", "free-censored", true, 0, 0⟩),
    ("meta-llama/llama-3.3-70b-instruct",
      ⟨"meta-llama/llama-3.3-70b-instruct", "free-censored", true, 0, 0⟩),
    ("moonshot/kimi-k2.5",
      ⟨"moonshot/kimi-k2.5", "paid-censored", true, 1/1000, 3/1000⟩),
    ("google/gemini-2.5-pro",
      ⟨"google/gemini-2.5-pro", "paid-censored", true, 15/10000, 6/1000⟩),
    ("deepseek/deepseek-v3.2",
      ⟨"deepseek/deepseek-v3.2", "paid-censored", true, 2/10000, 6/10000⟩) ]

/-- Catalog lookup LLM_MODELS[modelId]; none models the undefined result. -/
def findModel (modelId : String) : Option LlmModelConfig :=
  (LLM_MODELS.find? (fun p => decide (p.1 = modelId))).map Prod.snd

/-- The static fallback chain FALLBACK_CHAINS["free-first"]. -/
def chainFreeFirst : List String :=
  [ "venice/uncensored:free",
    "cognitivecomputations/dolphin-mistral-24b-venice-edition:free",
    "mimo-v2-flash",
    "trinity-large-preview",
    "meta-llama/llama-3.3-70b-instruct" ]

/-- The static fallback chain FALLBACK_CHAINS["paid-first"]. -/
def chainPaidFirst : List String :=
  [ "cognitivecomputations/dolphin-3.0",
    "deepseek/deepseek-v3.2",
    "nous-hermes-3",
    "venice/uncensored:free" ]

/-- The static fallback chain FALLBACK_CHAINS["uncensored-only"]. -/
def chainUncensoredOnly : List String :=
  [ "venice/uncensored:free",
    "cognitivecomputations/dolphin-mistral-24b-venice-edition:free",
    "cognitivecomputations/dolphin-3.0",
    "nous-hermes-3" ]

/-- The static fallback chain FALLBACK_CHAINS["censored-only"]. -/
def chainCensoredOnly : List String :=
  [ "mimo-v2-flash",
    "trinity-large-preview",
    "meta-llama/llama-3.3-70b-instruct",
    "moonshot/kimi-k2.5",
    "google/gemini-2.5-pro",
    "deepseek/deepseek-v3.2" ]

/-- FALLBACK_CHAINS[tier] with the JavaScript fallback
FALLBACK_CHAINS[tier] || FALLBACK_CHAINS["free-first"] for unknown keys. -/
def chainFor (tier : String) : List String :=
  if tier = "free-first" then chainFreeFirst
  else if tier = "paid-first" then chainPaidFirst
  else if tier = "uncensored-only" then chainUncensoredOnly
  else if tier = "censored-only" then chainCensoredOnly
  else chainFreeFirst

/-- selectModel of llmRouter.ts: head of the chain after the censorship
filters, with the hard fallback to venice/uncensored:free. -/
def selectModel (tier : String) (allowUncensored allowCensored : Bool) : String :=
  selectGo (chainFor tier) allowUncensored allowCensored
where
  selectGo : List String → Bool → Bool → String
    | [], _, _ => "venice/uncensored:free"
    | modelId :: rest, aU, aC =>
      match findModel modelId with
      | none => selectGo rest aU aC
      | some m =>
        if m.censored && !aC then selectGo rest aU aC
        else if !m.censored && !aU then selectGo rest aU aC
        else modelId

/-- calculateCost of llmRouter.ts, in exact rational arithmetic. -/
def calculateCost (modelId : String) (inputTokens outputTokens : Nat) : ℚ :=
  match findModel modelId with
  | none => 0
  | some m =>
    (inputTokens : ℚ) / 1000000 * m.costPerMTok + (outputTokens : ℚ) / 1000000 * m.costPerCTok

/-- The JSON shape the router reads from a successful response body:
data.choices?.[0]?.message?.content, data.usage?.prompt_tokens and
data.usage?.completion_tokens, each possibly absent. -/
structure RouterJson where
  content : Option String
  promptTokens : Option Nat
  completionTokens : Option Nat
deriving DecidableEq

/-- Outcome of one fetch call: the response status and body.  jsonBody is
the outcome of awaiting response.json(); an error value models a body that
is not parseable as JSON (the await throws). -/
structure FetchOutcome where
  ok : Bool
  status : Nat
  bodyText : String
  jsonBody : Except String RouterJson

/-- Successful return value of callOpenRouter. -/
structure CallSuccess where
  content : String
  inputTokens : Nat
  outputTokens : Nat
  cost : ℚ
  model : String
deriving DecidableEq

/-- Truthiness of an optional string as JavaScript sees it: undefined and
the empty string are falsy. -/
def jsTruthyStr (o : Option String) : Bool :=
  match o with
  | none => false
  | some s => decide (s ≠ "")

/-- callOpenRouter of llmRouter.ts.  apiKey is process.env.OPENROUTER_API_KEY
(none when unset), fetch1 the outcome of the single fetch to the completions
endpoint (error = the await threw, i.e. transport failure).  A JavaScript
throw is an Except.error carrying the error message; the non-ok branch
throws the string built from the status and body text. -/
def callOpenRouter (apiKey : Option String) (fetch1 : Except String FetchOutcome)
    (messages : List Msg) (modelId : String) : Except String CallSuccess :=
  let _ := messages
  if jsTruthyStr apiKey = false then
    .error "OPENROUTER_API_KEY not set"
  else
    match fetch1 with
    | .error e => .error e
    | .ok resp =>
      if resp.ok = false then
        .error ("OpenRouter API error: " ++ toString resp.status ++ " - " ++ resp.bodyText)
      else
        match resp.jsonBody with
        | .error e => .error e
        | .ok data =>
          let inTok := data.promptTokens.getD 0
          let outTok := data.completionTokens.getD 0
          .ok { content := data.content.getD ""
              , inputTokens := inTok
              , outputTokens := outTok
              , cost := calculateCost modelId inTok outTok
              , model := modelId }

/-- Successful return value of callOpenRouterWithFallback: the call result
plus the fallbackUsed flag. -/
structure FBSuccess extends CallSuccess where
  fallbackUsed : Bool
deriving DecidableEq

/-- Eligibility of one chain entry inside the fallback loop: the entry is
non-empty, present in the catalog, and passes both censorship guards; the
loop body executes a call exactly for eligible entries and continues past
the rest. -/
def eligModel (aU aC : Bool) (modelId : String) : Bool :=
  decide (modelId ≠ "") &&
  match findModel modelId with
  | none => false
  | some m => !(m.censored && !aC) && !(!m.censored && !aU)

/-- Loop of callOpenRouterWithFallback over the truncated chain.  i is the
loop index (used both for the fetch oracle and for the fallbackUsed update
if i is positive), le the lastError variable, fb the fallbackUsed variable. -/
def fbGo (ak : Option String) (ft : Nat → Except String FetchOutcome) (ms : List Msg)
    (aU aC : Bool) : List String → Nat → Option String → Bool → Except String FBSuccess
  | [], _, le, _ =>
    .error (le.getD "All LLM models failed")
  | modelId :: rest, i, le, fb =>
    if eligModel aU aC modelId then
      match callOpenRouter ak (ft i) ms modelId with
      | .ok r => .ok { toCallSuccess := r, fallbackUsed := fb || decide (0 < i) }
      | .error e => fbGo ak ft ms aU aC rest (i + 1) (some e) (fb || decide (0 < i))
    else
      fbGo ak ft ms aU aC rest (i + 1) le fb

/-- callOpenRouterWithFallback of llmRouter.ts.  The source loop runs i from
0 to Math.min(maxRetries, chain.length), reading chain[i]; that is iteration
over chain.take maxRetries with the positional index.  The fetch oracle ft
gives the transport outcome of the attempt made at index i. -/
def callOpenRouterWithFallback (ak : Option String) (ft : Nat → Except String FetchOutcome)
    (ms : List Msg) (tier : String) (aU aC : Bool) (maxRetries : Nat := 3) :
    Except String FBSuccess :=
  fbGo ak ft ms aU aC ((chainFor tier).take maxRetries) 0 none false

/-- Index and id of the last eligible entry of a chain, the candidate whose
failure the exhausted loop reports as lastError. -/
def lastElig (aU aC : Bool) : List String → Option (Nat × String)
  | [] => none
  | modelId :: rest =>
    match lastElig aU aC rest with
    | some (j, m) => some (j + 1, m)
    | none => if eligModel aU aC modelId then some (0, modelId) else none

/-- Boolean success test for an Except value. -/
def isOkE {ε α : Type} : Except ε α → Bool
  | .ok _ => true
  | .error _ => false

/-- The base64 alphabet used by Buffer.toString with encoding base64. -/
def b64Table : List Char :=
  "ABCDEFGHIJKLMNOPQRSTUVWXYZabcdefghijklmnopqrstuvwxyz0123456789+/".toList

/-- Character of the base64 alphabet at index n. -/
def b64Char (n : Nat) : Char := b64Table.getD n 'A'

/-- Standard base64 encoding of a byte list with padding, the encoding that
Buffer.from(text).toString with base64 performs on the UTF-8 bytes. -/
def b64 : List Nat → List Char
  | [] => []
  | [a] =>
    [b64Char (a / 4), b64Char (a % 4 * 16), '=', '=']
  | [a, b] =>
    [b64Char (a / 4), b64Char (a % 4 * 16 + b / 16), b64Char (b % 16 * 4), '=']
  | a :: b :: c :: rest =>
    b64Char (a / 4) :: b64Char (a % 4 * 16 + b / 16) ::
    b64Char (b % 16 * 4 + c / 64) :: b64Char (c % 64) :: b64 rest

/-- UTF-8 bytes of one character, as Buffer.from produces for it. -/
def utf8Char (c : Char) : List Nat :=
  let n := c.toNat
  if n < 128 then [n]
  else if n < 2048 then [192 + n / 64, 128 + n % 64]
  else if n < 65536 then [224 + n / 4096, 128 + n / 64 % 64, 128 + n % 64]
  else [240 + n / 262144, 128 + n / 4096 % 64, 128 + n / 64 % 64, 128 + n % 64]

/-- UTF-8 byte list of a character list, as Buffer.from produces. -/
def utf8Bytes (l : List Char) : List Nat := (l.map utf8Char).flatten

/-- The fingerprint computed inline in analyzeFailurePattern:
Buffer.from(errorMessage.substring(0, 100)).toString(base64).substring(0, 64). -/
def patternHash (msg : List Char) : List Char :=
  (b64 (utf8Bytes (msg.take 100))).take 64

/-- Substring containment as the JavaScript String.includes test. -/
def containsSub (hay needle : List Char) : Bool :=
  match hay with
  | [] => needle.isEmpty
  | _ :: t => needle.isPrefixOf hay || containsSub t needle

/-- Insertion step of a descending sort by a rational key, used to model the
orderBy desc clauses of the drizzle selects. -/
def insertDesc {α : Type} (key : α → ℚ) (x : α) : List α → List α
  | [] => [x]
  | y :: ys => if key y ≤ key x then x :: y :: ys else y :: insertDesc key x ys

/-- Descending sort by a rational key, modelling orderBy desc. -/
def sortDesc {α : Type} (key : α → ℚ) : List α → List α
  | [] => []
  | x :: xs => insertDesc key x (sortDesc key xs)

/-- ErrorContext of selfHealing.ts.  The error message is kept as a list of
characters because the engine slices and fingerprints it; timestamps are
millisecond values as rationals. -/
structure ErrorContext where
  scheduleId : Nat
  skillId : Nat
  errorMessage : List Char
  errorStack : Option String
  attemptNumber : Nat
  timestamp : ℚ
  skillCode : Option String
  environment : Option (List (String × String))
deriving DecidableEq

/-- DiagnosisResult of selfHealing.ts.  fixStrategy is a plain string: the
source reads it from untyped JSON and the dispatch has a default case for
values outside the five documented tags. -/
structure DiagnosisResult where
  rootCause : String
  fixStrategy : String
  confidence : ℚ
  suggestedFix : Option String
  explanation : String
  requiresManualIntervention : Bool
deriving DecidableEq

/-- HealingResult of selfHealing.ts. -/
structure HealingResult where
  success : Bool
  action : String
  diagnosis : DiagnosisResult
  retryScheduled : Bool
  escalated : Bool
  message : String
deriving DecidableEq

/-- Row of the error_logs table (drizzle schema). -/
structure ErrorLogRec where
  id : Nat
  runId : Nat
  errorType : String
  errorMessage : Option (List Char)
  stackTrace : Option String
  diagnosis : Option String
  retryCount : Nat
  escalated : Bool
  escalationReason : Option String
  createdAt : ℚ
deriving DecidableEq

/-- Row of the failure_patterns table (drizzle schema).  The stored fix text
lives in the successfulFix column; the table has no knownFix column. -/
structure PatternRec where
  id : Nat
  patternHash : List Char
  errorType : String
  errorSignature : List Char
  occurrenceCount : Nat
  lastOccurrence : ℚ
  successfulFix : Option String
  preventionStrategy : Option String
  createdAt : ℚ
deriving DecidableEq

/-- Row of the skill_runs table, the fields selfHealing.ts reads. -/
structure SkillRunRec where
  id : Nat
  scheduleId : Nat
  startedAt : ℚ
deriving DecidableEq

/-- Row of the skill_schedules table, the fields selfHealing.ts touches. -/
structure ScheduleRec where
  id : Nat
  enabled : Bool
  status : String
  nextRunAt : Option ℚ
deriving DecidableEq

/-- The relational state the self-healing engine reads and writes, one list
per table plus autoincrement counters for inserted row ids. -/
structure Db where
  errorLogs : List ErrorLogRec
  failurePatterns : List PatternRec
  skillRuns : List SkillRunRec
  skillSchedules : List ScheduleRec
  nextErrorLogId : Nat
  nextPatternId : Nat
deriving DecidableEq

/-- JSON fields of a model diagnosis response, each possibly absent, as
JSON.parse leaves them for diagnoseProblem to read. -/
structure JsonDiag where
  rootCause : Option String
  fixStrategy : Option String
  confidence : Option ℚ
  suggestedFix : Option String
  explanation : Option String
  requiresManualIntervention : Option Bool
deriving DecidableEq

/-- External world of the healing engine: the clock (Date.now), the API key,
the per-attempt fetch outcomes of the router, and the behavior of JSON.parse
on response bodies. -/
structure HealEnv where
  now : ℚ
  apiKey : Option String
  fetch : Nat → Except String FetchOutcome
  parse : String → Except String JsonDiag

/-- JavaScript x || d for an optional string field: undefined and the empty
string fall back to the default. -/
def jsOrStr (o : Option String) (d : String) : String :=
  match o with
  | none => d
  | some s => if s = "" then d else s

/-- JavaScript x || d for an optional numeric field: undefined and 0 fall
back to the default. -/
def jsOrNum (o : Option ℚ) (d : ℚ) : ℚ :=
  match o with
  | none => d
  | some x => if x = 0 then d else x

/-- Update of the skill_schedules rows whose id matches, as the drizzle
update ... set ... where eq(id) statements of selfHealing.ts. -/
def updSchedule (db : Db) (sid : Nat) (f : ScheduleRec → ScheduleRec) : Db :=
  { db with skillSchedules := db.skillSchedules.map (fun s => if s.id = sid then f s else s) }

/-- logError of selfHealing.ts: picks the latest run of the schedule for the
runId (0 when none) and appends one error_logs row. -/
def logError (db : Db) (env : HealEnv) (ctx : ErrorContext) : Db :=
  let runs := (sortDesc (fun r => r.startedAt)
      (db.skillRuns.filter (fun r => decide (r.scheduleId = ctx.scheduleId)))).take 1
  let runId := match runs.head? with
    | some r => r.id
    | none => 0
  { db with
    errorLogs := db.errorLogs ++
      [ { id := db.nextErrorLogId
        , runId := runId
        , errorType := "skill_execution_error"
        , errorMessage := some ctx.errorMessage
        , stackTrace := ctx.errorStack
        , diagnosis := none
        , retryCount := ctx.attemptNumber
        , escalated := false
        , escalationReason := none
        , createdAt := env.now } ]
    nextErrorLogId := db.nextErrorLogId + 1 }

/-- Insertion of a fresh failure_patterns row by analyzeFailurePattern. -/
def insertPattern (db : Db) (h sig : List Char) (count : Nat) (lastOcc now : ℚ) : Db :=
  { db with
    failurePatterns := db.failurePatterns ++
      [ { id := db.nextPatternId
        , patternHash := h
        , errorType := "skill_execution_error"
        , errorSignature := sig
        , occurrenceCount := count
        , lastOccurrence := lastOcc
        , successfulFix := none
        , preventionStrategy := none
        , createdAt := now } ]
    nextPatternId := db.nextPatternId + 1 }

/-- analyzeFailurePattern of selfHealing.ts: reads the last 10 error rows of
the past 7 days, counts the ones whose message contains the 50-character
prefix of the current message, and on 3 or more either returns the already
stored pattern row for the fingerprint or inserts a fresh one (returning
null in that case, as the source falls through to return null). -/
def analyzeFailurePattern (db : Db) (env : HealEnv) (ctx : ErrorContext) :
    Option PatternRec × Db :=
  let sevenDaysAgo := env.now - 7 * 24 * 60 * 60 * 1000
  let recentErrors := (sortDesc (fun e => e.createdAt)
      (db.errorLogs.filter (fun e => decide (sevenDaysAgo ≤ e.createdAt)))).take 10
  if 3 ≤ recentErrors.length then
    let similarErrors := recentErrors.filter (fun e =>
      match e.errorMessage with
      | some m => !m.isEmpty && containsSub m (ctx.errorMessage.take 50)
      | none => false)
    if 3 ≤ similarErrors.length then
      let h := patternHash ctx.errorMessage
      match db.failurePatterns.find? (fun p => decide (p.patternHash = h)) with
      | some p => (some p, db)
      | none =>
        (none, insertPattern db h (ctx.errorMessage.take 500) similarErrors.length
          ctx.timestamp env.now)
    else (none, db)
  else (none, db)

/-- Property read pattern.knownFix performed by healFailedSkill and
applyKnownFix.  The failure_patterns row has no knownFix column (the stored
fix text is the successfulFix column), so on every row this JavaScript
property access evaluates to undefined. -/
def knownFixOf (_p : PatternRec) : Option String := none

/-- JavaScript template interpolation of a possibly undefined string. -/
def jsTemplate (o : Option String) : String :=
  match o with
  | none => "undefined"
  | some s => s

/-- applyKnownFix of selfHealing.ts: claims success unconditionally and
reports the diagnosis fixed at patch_code with confidence 0.9. -/
def applyKnownFix (_ctx : ErrorContext) (p : PatternRec) : HealingResult :=
  { success := true
  , action := "Applied known fix: " ++ jsTemplate (knownFixOf p)
  , diagnosis :=
    { rootCause := "Known recurring issue"
    , fixStrategy := "patch_code"
    , confidence := 9/10
    , suggestedFix := none
    , explanation := "Applied previously successful fix for this error pattern"
    , requiresManualIntervention := false }
  , retryScheduled := true
  , escalated := false
  , message := "Known fix applied successfully" }

/-- Prompt text diagnoseProblem builds from the error context (the JSON
template braces are escaped character codes). -/
def diagPrompt (ctx : ErrorContext) : String :=
  "You are a debugging expert. Analyze this error and provide a diagnosis.\n\nERROR CONTEXT:\n- Skill ID: "
  ++ toString ctx.skillId
  ++ "\n- Schedule ID: " ++ toString ctx.scheduleId
  ++ "\n- Attempt Number: " ++ toString ctx.attemptNumber
  ++ "\n- Error Message: " ++ String.mk ctx.errorMessage
  ++ (match ctx.errorStack with
      | some st => "\n- Stack Trace: " ++ st
      | none => "")
  ++ (match ctx.skillCode with
      | some c => "\n- Skill Code: " ++ c.take 1000
      | none => "")
  ++ "\n\nProvide a JSON response with:\n\x7b\n  \"rootCause\": \"brief description of the root cause\",\n  \"fixStrategy\": \"restart|patch_code|adjust_config|retry|escalate\",\n  \"confidence\": 0.0-1.0,\n  \"suggestedFix\": \"specific fix to apply (if applicable)\",\n  \"explanation\": \"detailed explanation for the user\",\n  \"requiresManualIntervention\": true|false\n\x7d"

/-- Message pair diagnoseProblem sends to the router. -/
def diagMessages (ctx : ErrorContext) : List Msg :=
  [ ⟨"system", "You are a debugging expert. Respond only with valid JSON."⟩,
    ⟨"user", diagPrompt ctx⟩ ]

/-- response.content || "\x7b\x7d": an empty content string is replaced by
the literal empty JSON object text before parsing. -/
def jsContentOr (s : String) : String :=
  if s = "" then "\x7b\x7d" else s

/-- Diagnosis built by the catch branch of diagnoseProblem when the router
call or JSON.parse threw. -/
def diagCatch (e : String) : DiagnosisResult :=
  { rootCause := "LLM diagnosis failed"
  , fixStrategy := "escalate"
  , confidence := 0
  , suggestedFix := none
  , explanation := "Could not diagnose error: " ++ e
  , requiresManualIntervention := true }

/-- diagnoseProblem of selfHealing.ts: routes the prompt through
callOpenRouterWithFallback under the uncensored-only tier (allowUncensored
true, the remaining arguments at their defaults), parses the response body,
and fills field defaults; both the router throw and the parse throw land in
the catch branch. -/
def diagnoseProblem (env : HealEnv) (ctx : ErrorContext) : DiagnosisResult :=
  match callOpenRouterWithFallback env.apiKey env.fetch (diagMessages ctx)
      "uncensored-only" true true 3 with
  | .error e => diagCatch e
  | .ok resp =>
    match env.parse (jsContentOr resp.content) with
    | .error e => diagCatch e
    | .ok d =>
      { rootCause := jsOrStr d.rootCause "Unknown error"
      , fixStrategy := jsOrStr d.fixStrategy "escalate"
      , confidence := jsOrNum d.confidence (1/2)
      , suggestedFix := d.suggestedFix
      , explanation := jsOrStr d.explanation "Unable to diagnose"
      , requiresManualIntervention := d.requiresManualIntervention.getD true }

/-- Result record of the fix helpers. -/
structure FixResult where
  success : Bool
  action : String
deriving DecidableEq

/-- restartSkill of selfHealing.ts: disables then re-enables the schedule
(the pause between the two updates has no observable effect on the state)
and reports success. -/
def restartSkill (db : Db) (ctx : ErrorContext) : FixResult × Db :=
  let db1 := updSchedule db ctx.scheduleId (fun s => { s with enabled := false })
  let db2 := updSchedule db1 ctx.scheduleId (fun s => { s with enabled := true, status := "idle" })
  (⟨true, "Skill restarted successfully"⟩, db2)

/-- attemptFix of selfHealing.ts: runtime dispatch on the fixStrategy tag
with a default case for unknown tags. -/
def attemptFix (db : Db) (ctx : ErrorContext) (d : DiagnosisResult) : FixResult × Db :=
  if d.fixStrategy = "restart" then restartSkill db ctx
  else if d.fixStrategy = "patch_code" then
    (⟨false, "Code patch suggested: " ++ jsOrStr d.suggestedFix "No specific fix provided"⟩, db)
  else if d.fixStrategy = "adjust_config" then
    (⟨false, "Config adjustment suggested: " ++ jsOrStr d.suggestedFix "No specific adjustment provided"⟩, db)
  else if d.fixStrategy = "retry" then (⟨true, "Scheduled retry with backoff"⟩, db)
  else if d.fixStrategy = "escalate" then (⟨false, "Escalated to user"⟩, db)
  else (⟨false, "Unknown fix strategy"⟩, db)

/-- Backoff of scheduleRetry in minutes:
Math.min(Math.pow(2, attemptNumber - 1), 120) with JavaScript arithmetic, so
the exponent is the integer attemptNumber - 1 (negative for attempt 0). -/
def backoffMinutes (n : Nat) : ℚ :=
  min ((2 : ℚ) ^ ((n : ℤ) - 1)) 120

/-- scheduleRetry of selfHealing.ts: writes nextRunAt = now plus the backoff
delay in milliseconds on the failing schedule row. -/
def scheduleRetry (db : Db) (env : HealEnv) (ctx : ErrorContext) : Db :=
  updSchedule db ctx.scheduleId (fun s =>
    { s with nextRunAt := some (env.now + backoffMinutes ctx.attemptNumber * 60 * 1000) })

/-- Rendering of a diagnosis as the JSON.stringify text stored on the error
row by escalateToUser (field order as in the record; exact JavaScript string
escaping is irrelevant to every claim and not reproduced). -/
def diagText (d : DiagnosisResult) : String :=
  "\x7b\"rootCause\":\"" ++ d.rootCause
  ++ "\",\"fixStrategy\":\"" ++ d.fixStrategy
  ++ "\",\"confidence\":" ++ toString d.confidence.num ++ "/" ++ toString d.confidence.den
  ++ ",\"explanation\":\"" ++ d.explanation
  ++ "\",\"requiresManualIntervention\":" ++ (if d.requiresManualIntervention then "true" else "false")
  ++ "\x7d"

/-- escalateToUser of selfHealing.ts: flags the most recent error row as
escalated and stores the diagnosis text on it. -/
def escalateToUser (db : Db) (d : DiagnosisResult) : Db :=
  match (sortDesc (fun e => e.createdAt) db.errorLogs).head? with
  | none => db
  | some r0 =>
    { db with errorLogs := db.errorLogs.map (fun e =>
        if e.id = r0.id then
          { e with escalated := true
                 , escalationReason := some d.explanation
                 , diagnosis := some (diagText d) }
        else e) }

/-- Tail of healFailedSkill after the failure-pattern check: diagnose via
the router, attempt the fix, then either schedule a retry, escalate, or fall
back to the default retry with backoff. -/
def healRest (db : Db) (env : HealEnv) (ctx : ErrorContext) : HealingResult × Option Db :=
  let diagnosis := diagnoseProblem env ctx
  let fr := attemptFix db ctx diagnosis
  let fixResult := fr.1
  let db3 := fr.2
  if fixResult.success || diagnosis.fixStrategy = "retry" then
    ( { success := fixResult.success
      , action := fixResult.action
      , diagnosis := diagnosis
      , retryScheduled := true
      , escalated := false
      , message := "Fix applied: " ++ fixResult.action ++ ". Retry scheduled." }
    , some (scheduleRetry db3 env ctx) )
  else if diagnosis.requiresManualIntervention then
    ( { success := false
      , action := "escalated"
      , diagnosis := diagnosis
      , retryScheduled := false
      , escalated := true
      , message := "Issue escalated: " ++ diagnosis.explanation }
    , some (escalateToUser db3 diagnosis) )
  else
    ( { success := false
      , action := "retry_scheduled"
      , diagnosis := diagnosis
      , retryScheduled := true
      , escalated := false
      , message := "Retry scheduled with exponential backoff" }
    , some (scheduleRetry db3 env ctx) )

/-- The HealingResult returned when getDb() yields no database handle. -/
def dbUnavailableResult : HealingResult :=
  { success := false
  , action := "none"
  , diagnosis :=
    { rootCause := "Database unavailable"
    , fixStrategy := "escalate"
    , confidence := 1
    , suggestedFix := none
    , explanation := "Cannot access database for healing"
    , requiresManualIntervention := true }
  , retryScheduled := false
  , escalated := true
  , message := "Database unavailable - cannot perform healing" }

/-- healFailedSkill of selfHealing.ts, the Healing Orchestrator entry point.
The database handle is none when the persistence collaborator is
unavailable (getDb() returned null).  The guard on the matched pattern is
the JavaScript truthiness test pattern && pattern.knownFix. -/
def healFailedSkill (dbOpt : Option Db) (env : HealEnv) (ctx : ErrorContext) :
    HealingResult × Option Db :=
  match dbOpt with
  | none => (dbUnavailableResult, none)
  | some db =>
    let db1 := logError db env ctx
    let pr := analyzeFailurePattern db1 env ctx
    let db2 := pr.2
    match pr.1 with
    | some p =>
      if jsTruthyStr (knownFixOf p) then (applyKnownFix ctx p, some db2)
      else healRest db2 env ctx
    | none => healRest db2 env ctx

/-- Definition following the words of the spec, for comparison with the
code: the case- and whitespace-normalized fixed-length prefix of an error
message from which the spec says the fingerprint is derived. -/
def normPrefixSpec (l : List Char) : List Char :=
  ((l.take 100).map Char.toLower).filter (fun c =>
    !(decide (c = ' ') || decide (c = '\t') || decide (c = '\n') || decide (c = '\r')))

/-- Concrete error message used by the executable scenarios below. -/
def msg0 : List Char := "boom at stage 4".toList

/-- Concrete error_logs row carrying msg0. -/
def errLog0 (i : Nat) (t : ℚ) : ErrorLogRec :=
  ⟨i, 0, "skill_execution_error", some msg0, none, none, 1, false, none, t⟩

/-- Concrete failure_patterns row for the fingerprint of msg0, carrying a
stored fix text in its successfulFix column. -/
def pat0 : PatternRec :=
  ⟨1, patternHash msg0, "skill_execution_error", msg0.take 500, 3, 500,
    some "restart the worker", none, 400⟩

/-- Concrete database state: three recent occurrences of msg0 already
logged and the stored pattern row pat0 for its fingerprint. -/
def db0 : Db :=
  ⟨[errLog0 1 1000, errLog0 2 2000, errLog0 3 3000], [pat0], [],
    [⟨1, true, "error", none⟩], 4, 2⟩

/-- Concrete error context: a fresh failure with message msg0. -/
def ctx0 : ErrorContext := ⟨1, 1, msg0, none, 1, 5000, none, none⟩

/-- Concrete environment with the API key unset, so that every router call
throws and the diagnosis lands in its catch branch. -/
def env0 : HealEnv :=
  ⟨10000, none, fun _ => .error "network down", fun _ => .error "Unexpected token"⟩

/-- Fetch oracle on which every attempt succeeds with a well-formed body. -/
def goodFetch : Nat → Except String FetchOutcome :=
  fun _ => .ok ⟨true, 200, "", .ok ⟨some "hi", some 1, some 2⟩⟩

/-- Fetch oracle failing the first attempt with a provider error and
succeeding afterwards. -/
def failThenGoodFetch : Nat → Except String FetchOutcome :=
  fun i => if i = 0 then .ok ⟨false, 500, "oops", .error "x"⟩ else goodFetch i

/-- Fetch oracle on which the transport always fails. -/
def downFetch : Nat → Except String FetchOutcome :=
  fun _ => .error "network down"

/-- Environment whose router call succeeds and whose JSON parse returns an
object with every diagnosis field absent. -/
def env8ok : HealEnv :=
  ⟨0, some "k", goodFetch, fun _ => .ok ⟨none, none, none, none, none, none⟩⟩

/-- Environment whose router call succeeds but whose response body does not
parse as JSON. -/
def env8bad : HealEnv :=
  ⟨0, some "k", goodFetch, fun _ => .error "Unexpected token o"⟩

/-- Concrete error context for the diagnosis scenarios. -/
def ctx8 : ErrorContext := ⟨2, 3, msg0, none, 1, 0, none, none⟩

/-- Take equality at a bound exceeding the length of one list forces the two
lists to be equal. -/
theorem take_eq_of_short {α : Type} (n : Nat) (l1 l2 : List α)
    (h : l1.take n = l2.take n) (hl : l1.length < n) : l1 = l2 := by
  have hlen : (l1.take n).length = (l2.take n).length := by rw [h]
  rw [List.length_take, List.length_take] at hlen
  have h2 : l2.length ≤ n := by omega
  have h1 : l1.take n = l1 := List.take_of_length_le (Nat.le_of_lt hl)
  have h3 : l2.take n = l2 := List.take_of_length_le h2
  rw [h1, h3] at h
  exact h

/-- The first 4k base64 characters depend only on the first 3k input
bytes. -/
theorem b64_take_agree : ∀ (k : Nat) (b1 b2 : List Nat),
    b1.take (3 * k) = b2.take (3 * k) →
    (b64 b1).take (4 * k) = (b64 b2).take (4 * k) := by
  intro k
  induction k with
  | zero => intro b1 b2 _; simp
  | succ k ih =>
    intro b1 b2 h
    by_cases h1 : b1.length < 3 * (k + 1)
    · rw [take_eq_of_short _ _ _ h h1]
    by_cases h2 : b2.length < 3 * (k + 1)
    · rw [take_eq_of_short _ _ _ h.symm h2]
    push_neg at h1 h2
    rcases b1 with _ | ⟨a, _ | ⟨b, _ | ⟨c, r1⟩⟩⟩
    · simp only [List.length_nil] at h1; omega
    · simp only [List.length_cons, List.length_nil] at h1; omega
    · simp only [List.length_cons, List.length_nil] at h1; omega
    rcases b2 with _ | ⟨p, _ | ⟨q, _ | ⟨w, r2⟩⟩⟩
    · simp only [List.length_nil] at h2; omega
    · simp only [List.length_cons, List.length_nil] at h2; omega
    · simp only [List.length_cons, List.length_nil] at h2; omega
    have e3 : 3 * (k + 1) = 3 * k + 1 + 1 + 1 := by ring
    rw [e3] at h
    simp only [List.take_succ_cons, List.cons.injEq] at h
    obtain ⟨rfl, rfl, rfl, htl⟩ := h
    have e4 : 4 * (k + 1) = 4 * k + 1 + 1 + 1 + 1 := by ring
    rw [e4]
    simp only [b64, List.take_succ_cons]
    rw [ih r1 r2 htl]

/-- The UTF-8 encoding of a character is never empty. -/
theorem utf8Char_ne_nil (c : Char) : utf8Char c ≠ [] := by
  simp only [utf8Char]
  split_ifs <;> simp

/-- A character list never has more characters than its UTF-8 encoding has
bytes. -/
theorem length_le_utf8 (l : List Char) : l.length ≤ (utf8Bytes l).length := by
  induction l with
  | nil => simp [utf8Bytes]
  | cons c t ih =>
    have hpos : 0 < (utf8Char c).length := List.length_pos.mpr (utf8Char_ne_nil c)
    simp only [utf8Bytes, List.map_cons, List.flatten_cons, List.length_append,
      List.length_cons] at ih ⊢
    omega

/-- UTF-8 encoding distributes over concatenation. -/
theorem utf8Bytes_append (x y : List Char) :
    utf8Bytes (x ++ y) = utf8Bytes x ++ utf8Bytes y := by
  simp [utf8Bytes, List.map_append, List.flatten_append]

/-- C10: the fingerprint depends only on the first 48 characters of the
error message: two messages agreeing on their first 48 characters yield the
same patternHash, because the base64 text truncated to 64 characters encodes
exactly the first 48 input bytes. -/
theorem patternHash_depends_only_on_48 (m1 m2 : List Char)
    (h : m1.take 48 = m2.take 48) : patternHash m1 = patternHash m2 := by
  by_cases h1 : m1.length < 48
  · rw [take_eq_of_short _ _ _ h h1]
  by_cases h2 : m2.length < 48
  · rw [take_eq_of_short _ _ _ h.symm h2]
  push_neg at h1 h2
  unfold patternHash
  have t1 : (m1.take 100).take 48 = m1.take 48 := by
    rw [List.take_take]
    norm_num
  have t2 : (m2.take 100).take 48 = m2.take 48 := by
    rw [List.take_take]
    norm_num
  have s1 : m1.take 100 = m1.take 48 ++ (m1.take 100).drop 48 :=
    (t1 ▸ (List.take_append_drop 48 (m1.take 100)).symm : _)
  have s2 : m2.take 100 = m2.take 48 ++ (m2.take 100).drop 48 :=
    (t2 ▸ (List.take_append_drop 48 (m2.take 100)).symm : _)
  have key : (utf8Bytes (m1.take 100)).take 48 = (utf8Bytes (m2.take 100)).take 48 := by
    rw [s1, s2, utf8Bytes_append, utf8Bytes_append, h]
    have hA : 48 ≤ (utf8Bytes (m2.take 48)).length := by
      have hle := length_le_utf8 (m2.take 48)
      rw [List.length_take] at hle
      omega
    rw [List.take_append_of_le_length hA, List.take_append_of_le_length hA]
  have h316 : (3 : Nat) * 16 = 48 := by norm_num
  have h416 : (4 : Nat) * 16 = 64 := by norm_num
  have hmain := b64_take_agree 16 (utf8Bytes (m1.take 100)) (utf8Bytes (m2.take 100))
    (by rw [h316]; exact key)
  rw [h416] at hmain
  exact hmain

/-- Witness for C10 at a concrete input: two 49-character messages that
agree on their first 48 characters and differ afterwards get the same
fingerprint. -/
theorem patternHash_depends_only_on_48_w :
    patternHash (List.replicate 48 'z' ++ ['p'])
      = patternHash (List.replicate 48 'z' ++ ['q']) :=
  patternHash_depends_only_on_48 _ _ (by decide)

/-- C7 counterexample: two messages that are identical after case
normalization (so identical normalized prefixes in the sense of the spec)
receive different fingerprints, because the code hashes the raw prefix with
no case or whitespace normalization. -/
theorem patternHash_no_normalization_cx :
    normPrefixSpec "Error: X".toList = normPrefixSpec "error: x".toList ∧
    patternHash "Error: X".toList ≠ patternHash "error: x".toList := by
  decide

/-- C7 amended: the fingerprint is a deterministic function of the raw
(un-normalized) 100-character prefix of the error message: agreement on the
raw prefix yields identical fingerprints. -/
theorem patternHash_raw_prefix_deterministic (m1 m2 : List Char)
    (h : m1.take 100 = m2.take 100) : patternHash m1 = patternHash m2 := by
  unfold patternHash
  rw [h]

/-- Witness for the amended C7 at a concrete input: messages that agree on
their raw first 100 characters and differ at character 101 get the same
fingerprint. -/
theorem patternHash_raw_prefix_deterministic_w :
    patternHash (List.replicate 100 'a' ++ ['b'])
      = patternHash (List.replicate 100 'a' ++ ['c']) :=
  patternHash_raw_prefix_deterministic _ _ (by decide)

/-- C9: retry scheduling computes the backoff min(2 pow (n-1), 120) minutes
for attempt number n at least 1, the delays for attempts 1 through 8 are
1, 2, 4, 8, 16, 32, 64 and 120 minutes, and scheduleRetry writes
now + delay (in milliseconds) as the next-eligible-run time of the failing
work item. -/
theorem scheduleRetry_backoff :
    (∀ n : Nat, 1 ≤ n → backoffMinutes n = min ((2 : ℚ) ^ (n - 1)) 120) ∧
    ((List.range 8).map (fun k => backoffMinutes (k + 1)) =
      ([1, 2, 4, 8, 16, 32, 64, 120] : List ℚ)) ∧
    (∀ db env ctx s, s ∈ (scheduleRetry db env ctx).skillSchedules →
      s.id = ctx.scheduleId →
      s.nextRunAt = some (env.now + backoffMinutes ctx.attemptNumber * 60 * 1000)) := by
  have hb : ∀ n : Nat, 1 ≤ n → backoffMinutes n = min ((2 : ℚ) ^ (n - 1)) 120 := by
    intro n hn
    have h1 : (n : ℤ) - 1 = ((n - 1 : Nat) : ℤ) := by omega
    rw [backoffMinutes, h1, zpow_natCast]
  refine ⟨hb, ?_, ?_⟩
  · have v : ∀ k : Nat, backoffMinutes (k + 1) = min ((2 : ℚ) ^ k) 120 := by
      intro k
      rw [hb (k + 1) (by omega)]
      norm_num
    simp only [List.range_succ, List.range_zero, List.map_append, List.map_cons,
      List.map_nil, List.nil_append, List.cons_append, v]
    norm_num [min_def]
  · intro db env ctx s hs hid
    simp only [scheduleRetry, updSchedule, List.mem_map] at hs
    obtain ⟨s0, _, hif⟩ := hs
    by_cases h : s0.id = ctx.scheduleId
    · rw [if_pos h] at hif
      rw [← hif]
    · rw [if_neg h] at hif
      rw [← hif] at hid
      exact absurd hid h

/-- Witness for C9: the eighth attempt gets the capped backoff. -/
theorem scheduleRetry_backoff_w :
    backoffMinutes 8 = min ((2 : ℚ) ^ (8 - 1)) 120 :=
  scheduleRetry_backoff.1 8 (by norm_num)

/-- C2 counterexample: at a concrete provider-level failure (status 429,
non-ok response) callOpenRouter throws the status error instead of
returning a successful CallAttempt value recording the failure. -/
theorem callOpenRouter_throws_cx :
    callOpenRouter (some "key") (.ok ⟨false, 429, "rate limited", .error "bad json"⟩)
      [] "venice/uncensored:free"
      = .error "OpenRouter API error: 429 - rate limited" ∧
    isOkE (callOpenRouter (some "key") (.ok ⟨false, 429, "rate limited", .error "bad json"⟩)
      [] "venice/uncensored:free") = false := by
  constructor <;> rfl

/-- C2 amended: callOpenRouter throws (does not return a value) on every
provider-level failure, carrying the status and body text in the error,
propagates transport-level failures and malformed bodies as thrown errors,
and throws when the API key is unset; its caller sees failures only as
exceptions. -/
theorem callOpenRouter_throw_semantics (k : String) (hk : k ≠ "")
    (st : Nat) (body : String) (jb : Except String RouterJson)
    (ms : List Msg) (mid : String) (e pe : String) :
    callOpenRouter (some k) (.ok ⟨false, st, body, jb⟩) ms mid
      = .error ("OpenRouter API error: " ++ toString st ++ " - " ++ body) ∧
    callOpenRouter (some k) (.error e) ms mid = .error e ∧
    callOpenRouter (some k) (.ok ⟨true, st, body, .error pe⟩) ms mid = .error pe ∧
    callOpenRouter none (.ok ⟨true, st, body, jb⟩) ms mid
      = .error "OPENROUTER_API_KEY not set" := by
  refine ⟨?_, ?_, ?_, ?_⟩ <;>
    simp [callOpenRouter, jsTruthyStr, hk]

/-- Witness for the amended C2 at concrete inputs. -/
theorem callOpenRouter_throw_semantics_w :
    callOpenRouter (some "key") (.ok ⟨false, 500, "x", .error "j"⟩) [] "m"
      = .error ("OpenRouter API error: " ++ toString 500 ++ " - " ++ "x") ∧
    callOpenRouter (some "key") (.error "net") [] "m" = .error "net" ∧
    callOpenRouter (some "key") (.ok ⟨true, 500, "x", .error "j"⟩) [] "m" = .error "j" ∧
    callOpenRouter none (.ok ⟨true, 500, "x", .error "j"⟩) [] "m"
      = .error "OPENROUTER_API_KEY not set" :=
  callOpenRouter_throw_semantics "key" (by decide) 500 "x" (.error "j") [] "m" "net" "j"

/-- If the fallback loop ends in an error, every eligible entry of the list
it walked was actually called and every such call threw. -/
theorem fbGo_error_elig_fail (ak : Option String) (ft : Nat → Except String FetchOutcome)
    (ms : List Msg) (aU aC : Bool) :
    ∀ (l : List String) (i : Nat) (le : Option String) (fb : Bool) (E : String),
    fbGo ak ft ms aU aC l i le fb = .error E →
    ∀ j mid, l.get? j = some mid → eligModel aU aC mid = true →
    ∃ e, callOpenRouter ak (ft (i + j)) ms mid = .error e := by
  intro l
  induction l with
  | nil =>
    intro i le fb E _ j mid hj _
    simp at hj
  | cons m0 rest ih =>
    intro i le fb E h j mid hj helig
    simp only [fbGo] at h
    by_cases h0 : eligModel aU aC m0 = true
    · rw [if_pos h0] at h
      cases hc : callOpenRouter ak (ft i) ms m0 with
      | ok r =>
        simp only [hc] at h
        exact (Except.noConfusion h)
      | error e0 =>
        simp only [hc] at h
        cases j with
        | zero =>
          simp only [List.get?] at hj
          injection hj with hj
          subst hj
          exact ⟨e0, by simpa using hc⟩
        | succ j2 =>
          have hj2 : rest.get? j2 = some mid := by simpa using hj
          obtain ⟨e, he⟩ := ih (i + 1) (some e0) (fb || decide (0 < i)) E h j2 mid hj2 helig
          exact ⟨e, by rw [show i + (j2 + 1) = i + 1 + j2 by omega]; exact he⟩
    · rw [if_neg h0] at h
      cases j with
      | zero =>
        simp only [List.get?] at hj
        injection hj with hj
        subst hj
        exact absurd helig h0
      | succ j2 =>
        have hj2 : rest.get? j2 = some mid := by simpa using hj
        obtain ⟨e, he⟩ := ih (i + 1) le fb E h j2 mid hj2 helig
        exact ⟨e, by rw [show i + (j2 + 1) = i + 1 + j2 by omega]; exact he⟩

/-- If the fallback loop ends in an error, the reported error is the failure
of the last eligible entry, or the incoming lastError (the generic message
when that is empty) if the list has no eligible entry. -/
theorem fbGo_error_last (ak : Option String) (ft : Nat → Except String FetchOutcome)
    (ms : List Msg) (aU aC : Bool) :
    ∀ (l : List String) (i : Nat) (le : Option String) (fb : Bool) (E : String),
    fbGo ak ft ms aU aC l i le fb = .error E →
    (∀ j mid, lastElig aU aC l = some (j, mid) →
      callOpenRouter ak (ft (i + j)) ms mid = .error E) ∧
    (lastElig aU aC l = none →
      le = some E ∨ (le = none ∧ E = "All LLM models failed")) := by
  intro l
  induction l with
  | nil =>
    intro i le fb E h
    constructor
    · intro j mid hl
      simp [lastElig] at hl
    · intro _
      simp only [fbGo] at h
      cases le with
      | none =>
        right
        refine ⟨rfl, ?_⟩
        simp only [Option.getD] at h
        injection h with h
        exact h.symm
      | some s =>
        left
        simp only [Option.getD] at h
        injection h with h
        rw [h]
  | cons m0 rest ih =>
    intro i le fb E h
    simp only [fbGo] at h
    by_cases h0 : eligModel aU aC m0 = true
    · rw [if_pos h0] at h
      cases hc : callOpenRouter ak (ft i) ms m0 with
      | ok r =>
        simp only [hc] at h
        exact (Except.noConfusion h)
      | error e0 =>
        simp only [hc] at h
        have IH := ih (i + 1) (some e0) (fb || decide (0 < i)) E h
        constructor
        · intro j mid hl
          simp only [lastElig] at hl
          cases hr : lastElig aU aC rest with
          | some jm =>
            obtain ⟨j0, m1⟩ := jm
            rw [hr] at hl
            simp only [Option.some.injEq, Prod.mk.injEq] at hl
            obtain ⟨hj, hm⟩ := hl
            subst hj
            subst hm
            have := IH.1 j0 m1 hr
            rw [show i + (j0 + 1) = i + 1 + j0 by omega]
            exact this
          | none =>
            rw [hr, if_pos h0] at hl
            simp only [Option.some.injEq, Prod.mk.injEq] at hl
            obtain ⟨hj, hm⟩ := hl
            subst hj
            subst hm
            rcases IH.2 hr with hE | ⟨hE, _⟩
            · injection hE with hE
              rw [Nat.add_zero, hc, hE]
            · exact absurd hE (by simp)
        · intro hl
          exfalso
          simp only [lastElig] at hl
          cases hr : lastElig aU aC rest with
          | some jm => rw [hr] at hl; simp at hl
          | none => rw [hr, if_pos h0] at hl; simp at hl
    · rw [if_neg h0] at h
      have IH := ih (i + 1) le fb E h
      constructor
      · intro j mid hl
        simp only [lastElig] at hl
        cases hr : lastElig aU aC rest with
        | some jm =>
          obtain ⟨j0, m1⟩ := jm
          rw [hr] at hl
          simp only [Option.some.injEq, Prod.mk.injEq] at hl
          obtain ⟨hj, hm⟩ := hl
          subst hj
          subst hm
          have := IH.1 j0 m1 hr
          rw [show i + (j0 + 1) = i + 1 + j0 by omega]
          exact this
        | none => rw [hr, if_neg h0] at hl; simp at hl
      · intro hl
        simp only [lastElig] at hl
        cases hr : lastElig aU aC rest with
        | some jm => rw [hr] at hl; simp at hl
        | none => exact IH.2 hr

/-- If the fallback loop succeeds, the success came from the first eligible
entry whose call succeeded: every earlier eligible entry was called and
threw, and the returned fallbackUsed flag is determined by the chain index
of the succeeding entry. -/
theorem fbGo_ok_shape (ak : Option String) (ft : Nat → Except String FetchOutcome)
    (ms : List Msg) (aU aC : Bool) :
    ∀ (l : List String) (i : Nat) (le : Option String) (fb : Bool) (r : FBSuccess),
    fbGo ak ft ms aU aC l i le fb = .ok r →
    ∃ j mid s, l.get? j = some mid ∧ eligModel aU aC mid = true ∧
      callOpenRouter ak (ft (i + j)) ms mid = .ok s ∧
      r = ⟨s, fb || decide (0 < i + j)⟩ ∧
      (∀ j2 mid2, j2 < j → l.get? j2 = some mid2 → eligModel aU aC mid2 = true →
        ∃ e, callOpenRouter ak (ft (i + j2)) ms mid2 = .error e) := by
  intro l
  induction l with
  | nil => intro i le fb r h; simp [fbGo] at h
  | cons m0 rest ih =>
    intro i le fb r h
    simp only [fbGo] at h
    by_cases h0 : eligModel aU aC m0 = true
    · rw [if_pos h0] at h
      cases hc : callOpenRouter ak (ft i) ms m0 with
      | ok s0 =>
        simp only [hc] at h
        injection h with h
        refine ⟨0, m0, s0, by simp, h0, by simpa using hc, ?_, ?_⟩
        · rw [← h, Nat.add_zero]
        · intro j2 mid2 hj2 _ _
          omega
      | error e0 =>
        simp only [hc] at h
        obtain ⟨j, mid, s, hg, he, hcall, hr, hearly⟩ :=
          ih (i + 1) (some e0) (fb || decide (0 < i)) r h
        refine ⟨j + 1, mid, s, by simpa using hg, he, ?_, ?_, ?_⟩
        · rw [show i + (j + 1) = i + 1 + j by omega]
          exact hcall
        · rw [hr]
          have t1 : 0 < i + 1 + j := by omega
          have t2 : 0 < i + (j + 1) := by omega
          rw [decide_eq_true t1, decide_eq_true t2, Bool.or_true, Bool.or_true]
        · intro j2 mid2 hj2 hg2 he2
          cases j2 with
          | zero =>
            simp only [List.get?] at hg2
            injection hg2 with hg2
            subst hg2
            exact ⟨e0, by simpa using hc⟩
          | succ j3 =>
            obtain ⟨e, he3⟩ := hearly j3 mid2 (by omega) (by simpa using hg2) he2
            exact ⟨e, by rw [show i + (j3 + 1) = i + 1 + j3 by omega]; exact he3⟩
    · rw [if_neg h0] at h
      obtain ⟨j, mid, s, hg, he, hcall, hr, hearly⟩ := ih (i + 1) le fb r h
      refine ⟨j + 1, mid, s, by simpa using hg, he, ?_, ?_, ?_⟩
      · rw [show i + (j + 1) = i + 1 + j by omega]
        exact hcall
      · rw [hr, show i + 1 + j = i + (j + 1) by omega]
      · intro j2 mid2 hj2 hg2 he2
        cases j2 with
        | zero =>
          simp only [List.get?] at hg2
          injection hg2 with hg2
          subst hg2
          exact absurd he2 h0
        | succ j3 =>
          obtain ⟨e, he3⟩ := hearly j3 mid2 (by omega) (by simpa using hg2) he2
          exact ⟨e, by rw [show i + (j3 + 1) = i + 1 + j3 by omega]; exact he3⟩

/-- If some eligible entry of the walked list has a succeeding call, the
fallback loop succeeds. -/
theorem fbGo_ok_of_exists (ak : Option String) (ft : Nat → Except String FetchOutcome)
    (ms : List Msg) (aU aC : Bool) :
    ∀ (l : List String) (i : Nat) (le : Option String) (fb : Bool),
    (∃ j mid, l.get? j = some mid ∧ eligModel aU aC mid = true ∧
      isOkE (callOpenRouter ak (ft (i + j)) ms mid) = true) →
    isOkE (fbGo ak ft ms aU aC l i le fb) = true := by
  intro l
  induction l with
  | nil =>
    intro i le fb h
    obtain ⟨j, mid, hg, _, _⟩ := h
    simp at hg
  | cons m0 rest ih =>
    intro i le fb h
    obtain ⟨j, mid, hg, he, hok⟩ := h
    simp only [fbGo]
    by_cases h0 : eligModel aU aC m0 = true
    · rw [if_pos h0]
      cases hc : callOpenRouter ak (ft i) ms m0 with
      | ok s0 => simp [isOkE]
      | error e0 =>
        apply ih (i + 1)
        cases j with
        | zero =>
          simp only [List.get?] at hg
          injection hg with hg
          subst hg
          rw [Nat.add_zero, hc] at hok
          simp [isOkE] at hok
        | succ j3 =>
          exact ⟨j3, mid, by simpa using hg, he,
            by rw [show i + 1 + j3 = i + (j3 + 1) by omega]; exact hok⟩
    · rw [if_neg h0]
      apply ih (i + 1)
      cases j with
      | zero =>
        simp only [List.get?] at hg
        injection hg with hg
        subst hg
        exact absurd he h0
      | succ j3 =>
        exact ⟨j3, mid, by simpa using hg, he,
          by rw [show i + 1 + j3 = i + (j3 + 1) by omega]; exact hok⟩

/-- C3 amended: callOpenRouterWithFallback fails only when every eligible
candidate (present in the catalog and passing the censorship filters) of the
chain truncated to maxAttempts has been tried without success; the reported
error is the failure reason of the last eligible attempt, or the generic
message when no candidate in the truncated chain was eligible (so that, with
filters active, the router can fail without trying every truncated
candidate); the default truncation bound is the smaller of 3 and the chain
length. -/
theorem callOpenRouterWithFallback_exhaustion (ak : Option String)
    (ft : Nat → Except String FetchOutcome) (ms : List Msg) (tier : String)
    (aU aC : Bool) (maxR : Nat) (E : String)
    (h : callOpenRouterWithFallback ak ft ms tier aU aC maxR = .error E) :
    (∀ j mid, ((chainFor tier).take maxR).get? j = some mid →
      eligModel aU aC mid = true →
      ∃ e, callOpenRouter ak (ft j) ms mid = .error e) ∧
    (∀ j mid, lastElig aU aC ((chainFor tier).take maxR) = some (j, mid) →
      callOpenRouter ak (ft j) ms mid = .error E) ∧
    (lastElig aU aC ((chainFor tier).take maxR) = none →
      E = "All LLM models failed") ∧
    (chainFor tier).take 3 = (chainFor tier).take (min 3 (chainFor tier).length) := by
  rw [callOpenRouterWithFallback] at h
  refine ⟨?_, ?_, ?_, ?_⟩
  · intro j mid hg he
    have := fbGo_error_elig_fail ak ft ms aU aC _ 0 none false E h j mid hg he
    simpa using this
  · intro j mid hl
    have := (fbGo_error_last ak ft ms aU aC _ 0 none false E h).1 j mid hl
    simpa using this
  · intro hl
    rcases (fbGo_error_last ak ft ms aU aC _ 0 none false E h).2 hl with h1 | ⟨_, h2⟩
    · exact absurd h1 (by simp)
    · exact h2
  · rcases Nat.le_total 3 (chainFor tier).length with hle | hle
    · rw [Nat.min_eq_left hle]
    · rw [Nat.min_eq_right hle, List.take_of_length_le hle,
        List.take_of_length_le (le_refl _)]

/-- Witness for the amended C3: under an unset API key every attempt of the
default free-first truncated chain throws, the router reports the last
eligible attempt of the truncated chain (index 2, mimo-v2-flash), and that
attempt indeed failed with the reported reason. -/
theorem callOpenRouterWithFallback_exhaustion_w :
    callOpenRouter none (downFetch 2) [] "mimo-v2-flash"
      = .error "OPENROUTER_API_KEY not set" :=
  (callOpenRouterWithFallback_exhaustion none downFetch [] "free-first" true true 3
    "OPENROUTER_API_KEY not set" (by rfl)).2.1 2 "mimo-v2-flash" (by rfl)

/-- C3 counterexample: with both censorship filters off, the router on the
free-first chain fails with the generic message even though no attempt was
made and every candidate of the truncated chain would have succeeded had it
been tried, so the router does not fail only when every truncated candidate
has been tried without success. -/
theorem callOpenRouterWithFallback_filtered_cx :
    callOpenRouterWithFallback (some "k") goodFetch [] "free-first" false false 3
      = .error "All LLM models failed" ∧
    isOkE (callOpenRouter (some "k") (goodFetch 0) [] "venice/uncensored:free") = true ∧
    isOkE (callOpenRouter (some "k") (goodFetch 1) []
      "cognitivecomputations/dolphin-mistral-24b-venice-edition:free") = true ∧
    isOkE (callOpenRouter (some "k") (goodFetch 2) [] "mimo-v2-flash") = true := by
  exact ⟨rfl, rfl, rfl, rfl⟩

/-- C4 amended: when the router succeeds, the success is the first eligible
candidate whose call succeeded, every earlier eligible candidate failed, and
fallbackUsed equals (0 < j) for the chain index j of the succeeding
candidate (so the flag is on whenever the succeeding candidate is not the
chain head, even if it was the first candidate actually tried); conversely
the router succeeds whenever some eligible candidate of the truncated chain
has a succeeding call. -/
theorem callOpenRouterWithFallback_flag (ak : Option String)
    (ft : Nat → Except String FetchOutcome) (ms : List Msg) (tier : String)
    (aU aC : Bool) (maxR : Nat) :
    (∀ r, callOpenRouterWithFallback ak ft ms tier aU aC maxR = .ok r →
      ∃ j mid s, ((chainFor tier).take maxR).get? j = some mid ∧
        eligModel aU aC mid = true ∧
        callOpenRouter ak (ft j) ms mid = .ok s ∧
        r = ⟨s, decide (0 < j)⟩ ∧
        (∀ j2 mid2, j2 < j → ((chainFor tier).take maxR).get? j2 = some mid2 →
          eligModel aU aC mid2 = true →
          ∃ e, callOpenRouter ak (ft j2) ms mid2 = .error e)) ∧
    (∀ j mid, ((chainFor tier).take maxR).get? j = some mid →
      eligModel aU aC mid = true →
      isOkE (callOpenRouter ak (ft j) ms mid) = true →
      isOkE (callOpenRouterWithFallback ak ft ms tier aU aC maxR) = true) := by
  constructor
  · intro r h
    rw [callOpenRouterWithFallback] at h
    obtain ⟨j, mid, s, hg, he, hcall, hr, hearly⟩ :=
      fbGo_ok_shape ak ft ms aU aC _ 0 none false r h
    refine ⟨j, mid, s, hg, he, by simpa using hcall, ?_, ?_⟩
    · rw [hr]
      simp
    · intro j2 mid2 hj2 hg2 he2
      obtain ⟨e, he3⟩ := hearly j2 mid2 hj2 hg2 he2
      exact ⟨e, by simpa using he3⟩
  · intro j mid hg he hok
    rw [callOpenRouterWithFallback]
    exact fbGo_ok_of_exists ak ft ms aU aC _ 0 none false
      ⟨j, mid, hg, he, by simpa using hok⟩

/-- Witness for the amended C4: on the free-first chain with default
filters, the first attempt fails with a provider error, the second succeeds,
and the returned record carries fallbackUsed = true with the succeeding
candidate at chain index 1. -/
theorem callOpenRouterWithFallback_flag_w :
    ∃ j mid s,
      ((chainFor "free-first").take 3).get? j = some mid ∧
      eligModel true true mid = true ∧
      callOpenRouter (some "k") (failThenGoodFetch j) [] mid = .ok s ∧
      (⟨⟨"hi", 1, 2, 0, "cognitivecomputations/dolphin-mistral-24b-venice-edition:free"⟩,
        true⟩ : FBSuccess) = ⟨s, decide (0 < j)⟩ ∧
      (∀ j2 mid2, j2 < j → ((chainFor "free-first").take 3).get? j2 = some mid2 →
        eligModel true true mid2 = true →
        ∃ e, callOpenRouter (some "k") (failThenGoodFetch j2) [] mid2 = .error e) :=
  (callOpenRouterWithFallback_flag (some "k") failThenGoodFetch [] "free-first"
    true true 3).1
    ⟨⟨"hi", 1, 2, 0, "cognitivecomputations/dolphin-mistral-24b-venice-edition:free"⟩, true⟩
    (by with_unfolding_all rfl)

/-- C4 counterexample: with uncensored models filtered out, the first two
chain entries are skipped and the first candidate actually tried
(mimo-v2-flash, chain index 2) succeeds, yet fallbackUsed is true, so the
flag is not false when the very first candidate tried succeeds. -/
theorem callOpenRouterWithFallback_flag_cx :
    callOpenRouterWithFallback (some "k") goodFetch [] "free-first" false true 3
      = .ok ⟨⟨"hi", 1, 2, 0, "mimo-v2-flash"⟩, true⟩ ∧
    eligModel false true "venice/uncensored:free" = false ∧
    eligModel false true "cognitivecomputations/dolphin-mistral-24b-venice-edition:free"
      = false ∧
    eligModel false true "mimo-v2-flash" = true := by
  exact ⟨by with_unfolding_all rfl, rfl, rfl, rfl⟩

/-- Every run of the post-pattern part of the orchestrator ends in a
terminal outcome that either schedules a retry or escalates. -/
theorem healRest_terminal (db : Db) (env : HealEnv) (ctx : ErrorContext) :
    (healRest db env ctx).1.retryScheduled = true ∨
    (healRest db env ctx).1.escalated = true := by
  simp only [healRest]
  split
  · simp
  · split
    · simp
    · simp

/-- C1: the Healing Orchestrator always returns a terminal HealingOutcome:
with the persistence collaborator unavailable it returns the escalated
outcome with success false instead of propagating the storage error, and
with a database present every outcome either schedules a retry or
escalates, for every oracle behavior (including a throwing router and a
throwing JSON parse). -/
theorem healFailedSkill_terminal (env : HealEnv) (ctx : ErrorContext) (db : Db) :
    healFailedSkill none env ctx = (dbUnavailableResult, none) ∧
    dbUnavailableResult.success = false ∧
    dbUnavailableResult.escalated = true ∧
    ((healFailedSkill (some db) env ctx).1.retryScheduled = true ∨
      (healFailedSkill (some db) env ctx).1.escalated = true) := by
  refine ⟨rfl, rfl, rfl, ?_⟩
  simp only [healFailedSkill]
  cases (analyzeFailurePattern (logError db env ctx) env ctx).1 with
  | some p =>
    simp only [knownFixOf, jsTruthyStr, Bool.false_eq_true, if_false]
    exact healRest_terminal _ env ctx
  | none => exact healRest_terminal _ env ctx

/-- C5: at a concrete state whose failure-pattern store holds a row for the
fingerprint of the current error with a stored non-empty fix text
(successfulFix), the orchestrator still does not apply it: the lookup
returns that row, but the code reads the nonexistent knownFix property
(undefined on every row), so the run falls through to the model diagnosis
and ends escalated with success false and confidence 0 instead of the
claimed success true with confidence 0.9. -/
theorem healFailedSkill_known_fix_bug :
    (healFailedSkill (some db0) env0 ctx0).1.success = false ∧
    (healFailedSkill (some db0) env0 ctx0).1.escalated = true ∧
    (healFailedSkill (some db0) env0 ctx0).1.retryScheduled = false ∧
    (healFailedSkill (some db0) env0 ctx0).1.diagnosis.confidence = 0 ∧
    (analyzeFailurePattern (logError db0 env0 ctx0) env0 ctx0).1 = some pat0 ∧
    pat0.successfulFix = some "restart the worker" ∧
    knownFixOf pat0 = none := by
  refine ⟨?_, ?_, ?_, ?_, ?_, rfl, rfl⟩ <;> with_unfolding_all rfl

/-- C6 amended: the failure-pattern store keeps at most one row per
fingerprint (a row is inserted only when the lookup finds none, so pairwise
distinctness of fingerprints is preserved), existing rows are never modified
(the table only ever grows by appending), and a subsequent matched
occurrence returns the stored row with the whole database unchanged: the
occurrenceCount is not incremented and lastOccurrence is not refreshed. -/
theorem analyzeFailurePattern_upsert (db : Db) (env : HealEnv) (ctx : ErrorContext) :
    (List.Pairwise (fun a b => a.patternHash ≠ b.patternHash) db.failurePatterns →
      List.Pairwise (fun a b => a.patternHash ≠ b.patternHash)
        ((analyzeFailurePattern db env ctx).2).failurePatterns) ∧
    (∃ tail, ((analyzeFailurePattern db env ctx).2).failurePatterns
      = db.failurePatterns ++ tail) ∧
    (∀ p, (analyzeFailurePattern db env ctx).1 = some p →
      (analyzeFailurePattern db env ctx).2 = db) := by
  simp only [analyzeFailurePattern]
  split
  · split
    · rcases hf : db.failurePatterns.find?
        (fun p => decide (p.patternHash = patternHash ctx.errorMessage)) with _ | p
      · rw [hf]
        refine ⟨?_, ⟨_, rfl⟩, ?_⟩
        · intro hpw
          simp only [insertPattern]
          rw [List.pairwise_append]
          refine ⟨hpw, List.pairwise_singleton _ _, ?_⟩
          intro a ha b hb
          simp only [List.mem_singleton] at hb
          subst hb
          have := List.find?_eq_none.mp hf a ha
          simpa using this
        · intro p hp
          exact absurd hp (by simp)
      · rw [hf]
        exact ⟨fun hpw => hpw, ⟨[], by simp⟩, fun _ _ => rfl⟩
    · exact ⟨fun hpw => hpw, ⟨[], by simp⟩, fun _ _ => rfl⟩
  · exact ⟨fun hpw => hpw, ⟨[], by simp⟩, fun _ _ => rfl⟩

/-- Witness for the amended C6 at the concrete store db0. -/
theorem analyzeFailurePattern_upsert_w :
    List.Pairwise (fun a b => a.patternHash ≠ b.patternHash)
      ((analyzeFailurePattern db0 env0 ctx0).2).failurePatterns ∧
    (∃ tail, ((analyzeFailurePattern db0 env0 ctx0).2).failurePatterns
      = db0.failurePatterns ++ tail) := by
  have h := analyzeFailurePattern_upsert db0 env0 ctx0
  exact ⟨h.1 (by simp [db0]), h.2.1⟩

/-- C6 counterexample: a matched subsequent occurrence of an already stored
fingerprint (the context carries timestamp 5000) leaves the stored row at
occurrenceCount 3 and lastOccurrence 500 and the database entirely
unchanged, so the store does not increment the count or refresh the last
occurrence on a match. -/
theorem analyzeFailurePattern_no_update_cx :
    (analyzeFailurePattern db0 env0 ctx0).2 = db0 ∧
    (analyzeFailurePattern db0 env0 ctx0).1 = some pat0 ∧
    pat0.occurrenceCount = 3 ∧
    pat0.lastOccurrence = 500 ∧
    ctx0.timestamp = 5000 := by
  refine ⟨?_, ?_, rfl, rfl, rfl⟩ <;> with_unfolding_all rfl

/-- C8 amended: when the model response parses but every diagnosis field is
absent, diagnoseProblem fills the defaults escalate, 0.5 and manual
intervention; when the body does not parse as JSON, or the router itself
throws, the catch branch returns the escalate diagnosis with confidence 0
(not 0.5) and requiresManualIntervention true; in no case does
diagnoseProblem throw. -/
theorem diagnoseProblem_defaults (env : HealEnv) (ctx : ErrorContext) (rs : FBSuccess)
    (d : JsonDiag) (e : String) :
    (callOpenRouterWithFallback env.apiKey env.fetch (diagMessages ctx)
        "uncensored-only" true true 3 = .ok rs →
      env.parse (jsContentOr rs.content) = .ok d →
      d.rootCause = none → d.fixStrategy = none → d.confidence = none →
      d.explanation = none → d.requiresManualIntervention = none →
      diagnoseProblem env ctx =
        ⟨"Unknown error", "escalate", 1/2, d.suggestedFix, "Unable to diagnose", true⟩) ∧
    (callOpenRouterWithFallback env.apiKey env.fetch (diagMessages ctx)
        "uncensored-only" true true 3 = .ok rs →
      env.parse (jsContentOr rs.content) = .error e →
      diagnoseProblem env ctx = diagCatch e) ∧
    (callOpenRouterWithFallback env.apiKey env.fetch (diagMessages ctx)
        "uncensored-only" true true 3 = .error e →
      diagnoseProblem env ctx = diagCatch e) ∧
    diagCatch e = ⟨"LLM diagnosis failed", "escalate", 0, none,
      "Could not diagnose error: " ++ e, true⟩ := by
  refine ⟨?_, ?_, ?_, rfl⟩
  · intro h1 h2 hr hf hc hx hm
    simp [diagnoseProblem, h1, h2, hr, hf, hc, hx, hm, jsOrStr, jsOrNum]
  · intro h1 h2
    simp [diagnoseProblem, h1, h2]
  · intro h1
    simp [diagnoseProblem, h1]

/-- Witness for the amended C8: a successful router call whose parsed body
has every field absent yields exactly the default diagnosis. -/
theorem diagnoseProblem_defaults_w :
    diagnoseProblem env8ok ctx8 =
      ⟨"Unknown error", "escalate", 1/2, none, "Unable to diagnose", true⟩ :=
  (diagnoseProblem_defaults env8ok ctx8
      ⟨⟨"hi", 1, 2, 0, "venice/uncensored:free"⟩, false⟩
      ⟨none, none, none, none, none, none⟩ "e").1
    (by with_unfolding_all rfl) rfl rfl rfl rfl rfl rfl

/-- C8 counterexample: on an unparseable model response body the returned
diagnosis has confidence 0, not the claimed default 0.5 (it does escalate
with requiresManualIntervention true and without throwing). -/
theorem diagnoseProblem_unparseable_cx :
    (diagnoseProblem env8bad ctx8).confidence = 0 ∧
    ¬((diagnoseProblem env8bad ctx8).confidence = 1/2) ∧
    (diagnoseProblem env8bad ctx8).fixStrategy = "escalate" ∧
    (diagnoseProblem env8bad ctx8).requiresManualIntervention = true := by
  have h0 : (diagnoseProblem env8bad ctx8).confidence = 0 := by
    with_unfolding_all rfl
  refine ⟨h0, ?_, by with_unfolding_all rfl, by with_unfolding_all rfl⟩
  rw [h0]
  norm_num
